import Mathlib

/-!
Verification development for the CardPane dashboard server.

This file gives a shallow embedding of the server-side core of the
repository — the secrets manager with its encryption layer
(`server/crypto.js`, `server/secrets.js`), and the backend lifecycle
reconciler and AI-summary aggregation (`server/index.js`) — and proves
the testable properties stated in the design document against it.

Modelling conventions:
* JavaScript JSON values are modelled by the mutual inductive family
  `JsValue`/`JsArr`/`JsObj`.  JavaScript objects (`Map`s and plain
  objects used as dictionaries) are modelled as association lists in
  insertion order, which matches both `Map` iteration order and
  `Object.entries`/`Object.keys` enumeration order for string keys.
* `JSON.stringify` equality of two JSON trees is modelled by structural
  equality of `JsValue` (stringify is injective on the modelled trees).
* The Node `crypto` AES-256-GCM primitive is an external platform
  collaborator; it is modelled as an ideal authenticated cipher with
  symbolic ciphertexts and tags, and PBKDF2 as an injective pairing.
* Side effects that do not influence the verified state (console and
  file logging, timestamps, the SSE client list) are omitted.
-/

/- JavaScript JSON value: null, boolean, number, string, array or object.
Numbers are modelled as integers (no claim depends on float behaviour). -/
mutual
/-- JavaScript JSON value. -/
inductive JsValue where
  | null : JsValue
  | bool (b : Bool) : JsValue
  | num (n : Int) : JsValue
  | str (s : String) : JsValue
  | arr (elems : JsArr) : JsValue
  | obj (fields : JsObj) : JsValue
  deriving DecidableEq
inductive JsArr where
  | nil : JsArr
  | cons (hd : JsValue) (tl : JsArr) : JsArr
  deriving DecidableEq
inductive JsObj where
  | nil : JsObj
  | cons (key : String) (val : JsValue) (tl : JsObj) : JsObj
  deriving DecidableEq
end

/-- JavaScript truthiness on JSON values: `null`, `false`, `0` and `""` are
falsy; arrays and objects are always truthy. -/
def jsFalsy : JsValue → Bool
  | JsValue.null => true
  | JsValue.bool b => !b
  | JsValue.num n => n == 0
  | JsValue.str s => s == ""
  | JsValue.arr _ => false
  | JsValue.obj _ => false

/-- The JavaScript expression `config || {}` applied to a possibly-absent
(`undefined`, modelled as `none`) configuration value. -/
def orEmptyObj : Option JsValue → JsValue
  | none => JsValue.obj JsObj.nil
  | some v => if jsFalsy v then JsValue.obj JsObj.nil else v

/-- Lookup in a JavaScript dictionary (plain object / `Map`) modelled as an
association list: `m.get(k)` / `m[k]`. -/
def mapGet {β : Type} (m : List (String × β)) (k : String) : Option β :=
  (m.find? (fun p => p.1 == k)).map (fun p => p.2)

/-- Assignment `m.set(k, v)` / `m[k] = v`: an existing key keeps its position
and gets the new value, a new key is appended at the end.  This is the
JavaScript `Map`/object update semantics. -/
def mapSet {β : Type} (m : List (String × β)) (k : String) (v : β) : List (String × β) :=
  if m.any (fun p => p.1 == k) then
    m.map (fun p => if p.1 == k then (k, v) else p)
  else m ++ [(k, v)]

/-- Deletion `m.delete(k)` / `delete m[k]`. -/
def mapDel {β : Type} (m : List (String × β)) (k : String) : List (String × β) :=
  m.filter (fun p => !(p.1 == k))

/-- Key list of a dictionary, `Object.keys(m)` / iteration order of keys. -/
def mapKeys {β : Type} (m : List (String × β)) : List String :=
  m.map Prod.fst

/-!
## Encryption layer (`server/crypto.js`)

The AES-256-GCM + PBKDF2 platform primitive is idealised: a derived key is
the injective pair of master key and salt; a ciphertext is a symbolic box
holding the key and IV it was produced under together with the plaintext;
the authentication tag binds key, IV and ciphertext.  GCM decryption
verifies the tag recomputed from the supplied key against the stored tag,
and symbolic unboxing with a mismatched key or IV yields garbage that then
fails JSON parsing.  Plaintext serialisation (`JSON.stringify`/`JSON.parse`
round-trip) is the identity at this level, so the plaintext type is a
parameter `α`.
-/

/-- Result of `deriveKey` (PBKDF2 of master key and salt), idealised as an
injective pairing. -/
structure DerivedKey where
  masterKey : String
  salt : Nat
  deriving DecidableEq

/-- PBKDF2 key derivation `deriveKey(masterKey, salt)` from `crypto.js`. -/
def deriveKey (masterKey : String) (salt : Nat) : DerivedKey :=
  ⟨masterKey, salt⟩

/-- Symbolic AES-256-GCM ciphertext: the encryption of `body` under `key`
with nonce `iv`. -/
structure Ciphertext (α : Type) where
  key : DerivedKey
  iv : Nat
  body : α
  deriving DecidableEq

/-- Symbolic GCM authentication tag over a ciphertext, bound to the key and
IV used for encryption. -/
structure AuthTag (α : Type) where
  key : DerivedKey
  iv : Nat
  ct : Ciphertext α
  deriving DecidableEq

/-- The stored blob produced by `encrypt` in `crypto.js`: the concatenation
salt ‖ iv ‖ ciphertext ‖ authTag (base64 framing elided). -/
structure EncBlob (α : Type) where
  salt : Nat
  iv : Nat
  ct : Ciphertext α
  tag : AuthTag α
  deriving DecidableEq

/-- Core of `encrypt(data, masterKey)` from `crypto.js`, with the random
salt and IV passed explicitly (model of `crypto.randomBytes`). -/
def encryptBlob {α : Type} (data : α) (masterKey : String) (salt iv : Nat) : EncBlob α :=
  ⟨salt, iv, ⟨deriveKey masterKey salt, iv, data⟩,
    ⟨deriveKey masterKey salt, iv, ⟨deriveKey masterKey salt, iv, data⟩⟩⟩

/-- `encrypt(data, masterKey)` from `crypto.js`: throws when the master key
is falsy, otherwise produces the blob. -/
def encrypt {α : Type} (data : α) (masterKey : String) (salt iv : Nat) : Except String (EncBlob α) :=
  if masterKey = "" then Except.error "Master key is required for encryption"
  else Except.ok (encryptBlob data masterKey salt iv)

/-- `decrypt(encryptedData, masterKey)` from `crypto.js`: throws when the
master key is falsy; re-derives the key from the stored salt, verifies the
GCM tag, and parses the recovered plaintext.  Unboxing a ciphertext with a
key or IV other than the one it was built under yields garbage whose JSON
parse fails. -/
def decrypt {α : Type} [DecidableEq α] (blob : EncBlob α) (masterKey : String) : Except String α :=
  if masterKey = "" then Except.error "Master key is required for decryption"
  else if blob.tag = ⟨deriveKey masterKey blob.salt, blob.iv, blob.ct⟩ then
    if blob.ct.key = deriveKey masterKey blob.salt ∧ blob.ct.iv = blob.iv then
      Except.ok blob.ct.body
    else Except.error "Unexpected token in JSON"
  else Except.error "Unsupported state or unable to authenticate data"

/-- Boolean test for an `Except` being in the error state. -/
def isErr {ε α : Type} : Except ε α → Bool
  | Except.error _ => true
  | Except.ok _ => false

deriving instance DecidableEq for Except

/-- `isValidMasterKey(masterKey)` from `crypto.js`: the key must be a string
of exactly 64 hexadecimal characters (case-insensitive); `none` models a
missing (`undefined`) environment variable. -/
def isHexDigit (c : Char) : Bool :=
  (('0' ≤ c) && (c ≤ '9')) || (('a' ≤ c) && (c ≤ 'f')) || (('A' ≤ c) && (c ≤ 'F'))

/-- Validation of the master key, `isValidMasterKey` in `crypto.js`. -/
def isValidMasterKey : Option String → Bool
  | none => false
  | some k => (k.length == 64) && k.data.all isHexDigit

/-!
## Secrets manager (`server/secrets.js`)
-/

/-- A per-widget-type secrets bucket: a JavaScript object of secret values. -/
abbrev Bucket := List (String × JsValue)

/-- The whole secrets store: widget type id to bucket. -/
abbrev SecretsMap := List (String × Bucket)

/-- Content of the encrypted secrets file on disk: either a well-formed
blob, or bytes too short to contain the salt ‖ iv ‖ ciphertext ‖ tag frame
(a truncated file), on which the platform cipher throws. -/
inductive EncStored (α : Type) where
  | blob (b : EncBlob α) : EncStored α
  | truncated : EncStored α

/-- Decryption of the stored secrets file as performed by
`SecretsManager.load`: `decrypt(data, this.masterKey)` with a possibly
missing master key. -/
def decryptStored {α : Type} [DecidableEq α] (stored : EncStored α) (masterKey : Option String) : Except String α :=
  match masterKey with
  | none => Except.error "Master key is required for decryption"
  | some k =>
    match stored with
    | EncStored.truncated => Except.error "Invalid initialization vector"
    | EncStored.blob b => decrypt b k

/-- On-disk state seen by `SecretsManager.load`: the development JSON file
and the encrypted production file, each possibly absent. -/
structure DiskState where
  devFile : Option SecretsMap
  encFile : Option (EncStored SecretsMap)

/-- `SecretsManager.load`: development mode reads the plain JSON file;
production mode decrypts the encrypted file; any error while loading is
caught and the store starts empty instead of crashing; a missing file also
yields the empty store. -/
def loadSecrets (isDevelopment : Bool) (masterKey : Option String) (disk : DiskState) : SecretsMap :=
  if isDevelopment then
    match disk.devFile with
    | some m => m
    | none => []
  else
    match disk.encFile with
    | some stored =>
      match decryptStored stored masterKey with
      | Except.ok m => m
      | Except.error _ => []
    | none => []

/-- The `SecretsManager` instance state. -/
structure SecretsManager where
  masterKey : Option String
  isDevelopment : Bool
  secrets : SecretsMap
  deriving DecidableEq

/-- The `SecretsManager` constructor: in non-development mode an invalid or
missing master key is a thrown initialisation error; otherwise the secrets
are loaded from disk. -/
def SecretsManager.create (masterKey : Option String) (isDevelopment : Bool) (disk : DiskState) : Except String SecretsManager :=
  if !isDevelopment && !(isValidMasterKey masterKey) then
    Except.error "Invalid or missing SECRETS_MASTER_KEY environment variable."
  else Except.ok ⟨masterKey, isDevelopment, loadSecrets isDevelopment masterKey disk⟩

/-- Outcome of the server start-up block in `server/index.js` lines 17-32:
a constructor error in production calls `process.exit(1)`; in development
the server continues with `secretsManager = null`. -/
inductive ServerInit where
  | exited : ServerInit
  | running (mgr : Option SecretsManager) : ServerInit

/-- The secrets-manager initialisation at the top of `server/index.js`. -/
def initServer (masterKey : Option String) (isDevelopment : Bool) (disk : DiskState) : ServerInit :=
  match SecretsManager.create masterKey isDevelopment disk with
  | Except.ok m => ServerInit.running (some m)
  | Except.error _ =>
    if !isDevelopment then ServerInit.exited else ServerInit.running none

/-- `SecretsManager.getWidgetSecrets`: throws on a falsy widget id, returns
the stored bucket or the empty object. -/
def SecretsManager.getWidgetSecrets (m : SecretsManager) (widgetId : String) : Except String Bucket :=
  if widgetId = "" then Except.error "Widget ID is required"
  else Except.ok ((mapGet m.secrets widgetId).getD [])

/-- `SecretsManager.setWidgetSecrets`: throws on a falsy widget id, fully
replaces the bucket for that widget type (the synchronous `save()` to disk
is outside the state model; a failed save propagates to the caller and does
not change which state was stored in memory). -/
def SecretsManager.setWidgetSecrets (m : SecretsManager) (widgetId : String) (bucket : Bucket) : Except String SecretsManager :=
  if widgetId = "" then Except.error "Widget ID is required"
  else Except.ok ⟨m.masterKey, m.isDevelopment, mapSet m.secrets widgetId bucket⟩

/-- `SecretsManager.deleteWidgetSecrets`: throws on a falsy widget id,
removes the bucket when present, no-op otherwise. -/
def SecretsManager.deleteWidgetSecrets (m : SecretsManager) (widgetId : String) : Except String SecretsManager :=
  if widgetId = "" then Except.error "Widget ID is required"
  else
    match mapGet m.secrets widgetId with
    | some _ => Except.ok ⟨m.masterKey, m.isDevelopment, mapDel m.secrets widgetId⟩
    | none => Except.ok m

/-- `SecretsManager.listWidgetsWithSecrets`: `Object.keys(this.secrets)`. -/
def SecretsManager.listWidgetsWithSecrets (m : SecretsManager) : List String :=
  mapKeys m.secrets

/-- `SecretsManager.hasSecrets`: whether the widget's bucket is non-empty. -/
def SecretsManager.hasSecrets (m : SecretsManager) (widgetId : String) : Except String Bool :=
  match m.getWidgetSecrets widgetId with
  | Except.ok bucket => Except.ok (decide (0 < bucket.length))
  | Except.error e => Except.error e

/-- The per-value masking rule of `SecretsManager.getMaskedSecrets`: a
string longer than 8 characters shows its first 3 and last 3 characters
around `"***"`; a non-empty string of length at most 8 becomes `"***"`;
everything else (non-strings and the empty string) passes through. -/
def maskValue : JsValue → JsValue
  | JsValue.str s =>
    if s.length > 8 then
      JsValue.str (s.take 3 ++ "***" ++ s.drop (s.length - 3))
    else if s.length > 0 then JsValue.str "***"
    else JsValue.str s
  | v => v

/-- The bucket-level masking loop of `getMaskedSecrets`: same keys in the
same order, each value masked. -/
def maskBucket (bucket : Bucket) : Bucket :=
  bucket.map (fun p => (p.1, maskValue p.2))

/-- `SecretsManager.getMaskedSecrets`: the masked view of a widget's
bucket. -/
def SecretsManager.getMaskedSecrets (m : SecretsManager) (widgetId : String) : Except String Bucket :=
  match m.getWidgetSecrets widgetId with
  | Except.ok secrets => Except.ok (maskBucket secrets)
  | Except.error e => Except.error e

/-!
## Backend lifecycle reconciler (`server/index.js`, `syncWidgetBackends`)
-/

/-- One widget instance placed on the dashboard, as stored in the layout
document: instance id `i`, widget type id, grid geometry, and the
per-instance configuration (absent when the user never configured it). -/
structure LayoutItem where
  i : String
  widgetId : String
  x : Int
  y : Int
  w : Int
  h : Int
  config : Option JsValue
  deriving DecidableEq

/-- A running backend handle as stored in the `activeBackends` map: the
stored `config` snapshot used for drift detection, and the behaviour of the
stored `cleanup` callback when invoked (`true` models a callback that
throws; the reconciler always stores a function here, inserting a no-op
when the initializer supplied none). -/
structure BackendHandle where
  cleanupThrows : Bool
  config : Option JsValue
  deriving DecidableEq

/-- What a backend module's `init(context)` call does, as seen by
`startBackend`: it may throw, return a bare cleanup function (legacy
shape), return an object with an optional `cleanup` member, or return
something that is neither a function nor an object. -/
inductive InitOutcome where
  | throws : InitOutcome
  | fnResult (cleanupThrows : Bool) : InitOutcome
  | objResult (cleanup : Option Bool) : InitOutcome
  | otherResult : InitOutcome
  deriving DecidableEq

/-- The environment of one reconciliation pass: the discovered backend
registry (which widget type ids have an `init`), and the behaviour of each
initializer on the context built from a layout item (the secrets bucket
read during context construction is part of this behaviour, so an
unchanged secrets store means an unchanged `init` function). -/
structure BackendEnv where
  registry : List String
  init : LayoutItem → InitOutcome

/-- The handle stored by `startBackend` for a given initializer outcome:
a thrown initializer stores nothing; a bare function is wrapped; an object
result takes its `cleanup` member or a no-op; any other result stores a
no-op handle.  The handle always records `item.config`. -/
def handleOf (outcome : InitOutcome) (item : LayoutItem) : Option BackendHandle :=
  match outcome with
  | InitOutcome.throws => none
  | InitOutcome.fnResult c => some ⟨c, item.config⟩
  | InitOutcome.objResult c => some ⟨c.getD false, item.config⟩
  | InitOutcome.otherResult => some ⟨false, item.config⟩

/-- Derived health status of a data snapshot entry. -/
inductive SnapshotStatus where
  | healthy : SnapshotStatus
  | error : SnapshotStatus
  deriving DecidableEq

/-- One entry of the `widgetDataSnapshot` map (timestamps elided). -/
structure SnapshotEntry where
  widgetId : String
  data : JsValue
  config : JsValue
  status : SnapshotStatus
  deriving DecidableEq

/-- The mutable server state the reconciler works on: the `activeBackends`
map and the `widgetDataSnapshot` map, both keyed by instance id. -/
structure SyncState where
  backends : List (String × BackendHandle)
  snapshots : List (String × SnapshotEntry)
  deriving DecidableEq

/-- The server state at process start: both maps empty. -/
def emptySyncState : SyncState :=
  ⟨[], []⟩

/-- Observable lifecycle calls made during one reconciliation pass:
`start instanceId config` records an invocation of `startBackend` (and so
of the initializer) with the given new config, `stop instanceId b` records
an invocation of the existing handle's `cleanup`, whose outcome `b` (throw
or normal return) is logged and swallowed. -/
inductive SyncEvent where
  | start (instanceId : String) (config : Option JsValue) : SyncEvent
  | stop (instanceId : String) (cleanupThrew : Bool) : SyncEvent
  deriving DecidableEq

/-- The instance id an event belongs to. -/
def SyncEvent.instId : SyncEvent → String
  | SyncEvent.start i _ => i
  | SyncEvent.stop i _ => i

/-- The sub-trace of events concerning one instance id. -/
def eventsOf (id : String) (tr : List SyncEvent) : List SyncEvent :=
  tr.filter (fun e => e.instId == id)

/-- The `startBackend` helper inside `syncWidgetBackends`: invokes the
initializer on the context built from the item (recorded as a `start`
event); on success stores the resulting handle under `instanceId`, and a
thrown initializer is caught and leaves no handle. -/
def startBackend (env : BackendEnv) (acc : SyncState × List SyncEvent) (instanceId : String) (item : LayoutItem) : SyncState × List SyncEvent :=
  match handleOf (env.init item) item with
  | some h =>
    (⟨mapSet acc.1.backends instanceId h, acc.1.snapshots⟩,
      acc.2 ++ [SyncEvent.start instanceId item.config])
  | none => (acc.1, acc.2 ++ [SyncEvent.start instanceId item.config])

/-- Step 1 of `syncWidgetBackends` for one desired instance: start it when
no handle exists; when a handle exists and `JSON.stringify` of the stored
config (defaulted to `{}`) differs from that of the item's config, invoke
the old handle's cleanup (errors swallowed), delete the handle, and start
fresh with the new config; otherwise leave it untouched. -/
def phase1Step (env : BackendEnv) (acc : SyncState × List SyncEvent) (entry : String × LayoutItem) : SyncState × List SyncEvent :=
  match mapGet acc.1.backends entry.1 with
  | some existing =>
    if orEmptyObj existing.config ≠ orEmptyObj entry.2.config then
      startBackend env
        (⟨mapDel acc.1.backends entry.1, acc.1.snapshots⟩,
          acc.2 ++ [SyncEvent.stop entry.1 existing.cleanupThrows])
        entry.1 entry.2
    else acc
  | none => startBackend env acc entry.1 entry.2

/-- Step 2 of `syncWidgetBackends` for one running handle: when its
instance is no longer desired, invoke its cleanup (errors swallowed),
remove the handle, and remove the instance's data snapshot. -/
def phase2Step (active : List (String × LayoutItem)) (acc : SyncState × List SyncEvent) (entry : String × BackendHandle) : SyncState × List SyncEvent :=
  if (mapGet active entry.1).isSome then acc
  else
    (⟨mapDel acc.1.backends entry.1, mapDel acc.1.snapshots entry.1⟩,
      acc.2 ++ [SyncEvent.stop entry.1 entry.2.cleanupThrows])

/-- The `activeInstances` map built at the top of `syncWidgetBackends`:
every layout item whose widget type has a registered backend, keyed by
instance id (a duplicated instance id keeps the last item, as with
`Map.set`). -/
def computeActiveInstances (registry : List String) (layout : List LayoutItem) : List (String × LayoutItem) :=
  layout.foldl
    (fun m item => if registry.contains item.widgetId then mapSet m item.i item else m)
    []

/-- `syncWidgetBackends`: one reconciliation pass over the current layout,
returning the new server state and the trace of lifecycle calls made. -/
def syncWidgetBackends (env : BackendEnv) (layout : List LayoutItem) (st : SyncState) : SyncState × List SyncEvent :=
  ((computeActiveInstances env.registry layout).foldl (phase1Step env) (st, [])).1.backends.foldl
    (phase2Step (computeActiveInstances env.registry layout))
    ((computeActiveInstances env.registry layout).foldl (phase1Step env) (st, []))

/-- State reached after one reconciliation pass. -/
def syncState (env : BackendEnv) (layout : List LayoutItem) (st : SyncState) : SyncState :=
  (syncWidgetBackends env layout st).1

/-- Trace of lifecycle calls of one reconciliation pass. -/
def syncTrace (env : BackendEnv) (layout : List LayoutItem) (st : SyncState) : List SyncEvent :=
  (syncWidgetBackends env layout st).2

/-- A sequence of reconciliation passes (one per saved layout) starting
from the empty server state. -/
def runPasses (env : BackendEnv) (layouts : List (List LayoutItem)) : SyncState :=
  layouts.foldl (fun st l => syncState env l st) emptySyncState

/-- Denotation of step 1 of the reconciler for one desired instance: the
handle stored for it afterwards, as a function of the handle stored before
(`none` both for a missing handle and after a thrown initializer). -/
def phase1LocalHandle (env : BackendEnv) (item : LayoutItem) : Option BackendHandle → Option BackendHandle
  | some h =>
    if orEmptyObj h.config ≠ orEmptyObj item.config then handleOf (env.init item) item
    else some h
  | none => handleOf (env.init item) item

/-- Denotation of step 1 of the reconciler for one desired instance: the
lifecycle calls it makes for that instance. -/
def phase1LocalTrace (_env : BackendEnv) (id : String) (item : LayoutItem) : Option BackendHandle → List SyncEvent
  | some h =>
    if orEmptyObj h.config ≠ orEmptyObj item.config then
      [SyncEvent.stop id h.cleanupThrows, SyncEvent.start id item.config]
    else []
  | none => [SyncEvent.start id item.config]

/-!
## AI summary aggregation (`server/index.js`, `GET /api/dashboard/ai-summary`)
-/

/-- Per-widget status as computed by the `ai-summary` endpoint for each
active instance. -/
inductive WidgetStatus where
  | unknown : WidgetStatus
  | healthy : WidgetStatus
  | error : WidgetStatus
  | noData : WidgetStatus
  deriving DecidableEq

/-- Overall `dashboard_state` values. -/
inductive DashboardState where
  | operational : DashboardState
  | noData : DashboardState
  | degraded : DashboardState
  | critical : DashboardState
  deriving DecidableEq

/-- `errorCount` in the `ai-summary` handler. -/
def errorCount (ws : List WidgetStatus) : Nat :=
  (ws.filter (fun w => w == WidgetStatus.error)).length

/-- `noDataCount` in the `ai-summary` handler. -/
def noDataCount (ws : List WidgetStatus) : Nat :=
  (ws.filter (fun w => w == WidgetStatus.noData)).length

/-- The `dashboard_state` computation of the `ai-summary` handler, a chain
of reassignments where a later condition overrides an earlier one.  The
JavaScript comparison `errorCount > widgets.length / 2` uses float
division; over integers it is `2 * errorCount > length`. -/
def dashboardStateOf (ws : List WidgetStatus) : DashboardState :=
  let s1 := if noDataCount ws > 0 then DashboardState.noData else DashboardState.operational
  let s2 := if errorCount ws > 0 then DashboardState.degraded else s1
  let s3 := if 2 * errorCount ws > ws.length then DashboardState.critical else s2
  if ws.length == 0 then DashboardState.noData else s3

/-- Modelled from the spec: the overall-state rule as worded by the design
document and the claim — `operational` when no widget has an error and none
is missing data; `no_data` when there are zero widgets or all widgets are
missing data; `degraded` on any error; `critical` on errors in more than
half — with the `no_data` condition checked before degraded/critical and
critical escalating over degraded. -/
def specDashboardState (ws : List WidgetStatus) : DashboardState :=
  if ws.length == 0 || ws.all (fun w => w == WidgetStatus.noData) then DashboardState.noData
  else if 2 * errorCount ws > ws.length then DashboardState.critical
  else if errorCount ws > 0 then DashboardState.degraded
  else DashboardState.operational

/-!
## Concrete fixtures used by witnesses and counterexamples
-/

/-- A backend environment whose single registered widget type always starts
successfully and returns a legacy cleanup function. -/
def wEnv : BackendEnv :=
  ⟨["w-widget"], fun _ => InitOutcome.fnResult false⟩

/-- A backend environment whose single registered widget type always throws
from its initializer. -/
def wEnvThrows : BackendEnv :=
  ⟨["w-widget"], fun _ => InitOutcome.throws⟩

/-- A layout item for instance `i1` with config `1`. -/
def wItem1 : LayoutItem :=
  ⟨"i1", "w-widget", 0, 0, 2, 2, some (JsValue.num 1)⟩

/-- The same instance `i1` after a config edit to `2`. -/
def wItem2 : LayoutItem :=
  ⟨"i1", "w-widget", 0, 0, 2, 2, some (JsValue.num 2)⟩

/-- A layout item for a second instance `i2` with no config. -/
def wItemB : LayoutItem :=
  ⟨"i2", "w-widget", 2, 0, 2, 2, none⟩

/-- A running handle for `i1` started from config `1`, with a well-behaved
cleanup. -/
def wHandle1 : BackendHandle :=
  ⟨false, some (JsValue.num 1)⟩

/-- A running handle for `i2`, whose cleanup throws when invoked. -/
def wHandleB : BackendHandle :=
  ⟨true, none⟩

/-- A cached data snapshot entry. -/
def wSnap : SnapshotEntry :=
  ⟨"w-widget", JsValue.null, JsValue.obj JsObj.nil, SnapshotStatus.healthy⟩

/-- A server state with running handles and snapshots for `i1` and `i2`. -/
def wState : SyncState :=
  ⟨[("i1", wHandle1), ("i2", wHandleB)], [("i1", wSnap), ("i2", wSnap)]⟩

/-- A well-formed 64-hex-character master key. -/
def wKey : String :=
  "0123456789abcdef0123456789abcdef0123456789abcdef0123456789abcdef"

/-!
## Dictionary lemmas
-/

theorem mapGet_cons {β : Type} (a : String × β) (m : List (String × β)) (k : String) :
    mapGet (a :: m) k = if a.1 = k then some a.2 else mapGet m k := by
  by_cases h : a.1 = k <;> simp [mapGet, List.find?_cons, h]

theorem mapGet_append {β : Type} (m m' : List (String × β)) (k : String) :
    mapGet (m ++ m') k =
      match mapGet m k with
      | some v => some v
      | none => mapGet m' k := by
  induction m with
  | nil => simp [mapGet]
  | cons a m ih =>
    by_cases h : a.1 = k <;> simp [mapGet_cons, h, ih]

theorem mapGet_isSome_iff {β : Type} (m : List (String × β)) (k : String) :
    (mapGet m k).isSome = true ↔ k ∈ mapKeys m := by
  induction m with
  | nil => simp [mapGet, mapKeys]
  | cons a m ih =>
    by_cases h : a.1 = k
    · simp [mapGet_cons, h, mapKeys]
    · simp [mapGet_cons, h, mapKeys, ih, Ne.symm h]

theorem mapGet_eq_none_iff {β : Type} (m : List (String × β)) (k : String) :
    mapGet m k = none ↔ k ∉ mapKeys m := by
  rw [← mapGet_isSome_iff]
  cases mapGet m k <;> simp

theorem mapGet_mem {β : Type} {m : List (String × β)} {k : String} {v : β}
    (h : mapGet m k = some v) : (k, v) ∈ m := by
  induction m with
  | nil => simp [mapGet] at h
  | cons a m ih =>
    by_cases hk : a.1 = k
    · rw [mapGet_cons, if_pos hk] at h
      have hv : a.2 = v := by injection h
      have hav : (k, v) = a := by
        cases a
        simp_all
      rw [hav]
      exact List.mem_cons_self _ _
    · rw [mapGet_cons, if_neg hk] at h
      exact List.mem_cons_of_mem _ (ih h)

theorem mem_mapGet {β : Type} {m : List (String × β)} {k : String} {v : β}
    (hnd : (mapKeys m).Nodup) (h : (k, v) ∈ m) : mapGet m k = some v := by
  induction m with
  | nil => simp at h
  | cons a m ih =>
    rw [mapKeys, List.map_cons, List.nodup_cons] at hnd
    rcases List.mem_cons.mp h with heq | hmem
    · rw [mapGet_cons, ← heq]
      simp
    · have hk : a.1 ≠ k := by
        intro hak
        exact hnd.1 (hak ▸ (List.mem_map.mpr ⟨(k, v), hmem, rfl⟩))
      rw [mapGet_cons, if_neg hk]
      exact ih hnd.2 hmem

theorem mapKeys_replace {β : Type} (m : List (String × β)) (k : String) (v : β) :
    mapKeys (m.map (fun p => if p.1 == k then (k, v) else p)) = mapKeys m := by
  induction m with
  | nil => rfl
  | cons a m ih =>
    simp only [mapKeys, List.map_cons] at ih ⊢
    rw [ih]
    by_cases h : a.1 = k
    · simp [h]
    · simp [h]

theorem map_replace_no_key {β : Type} (m : List (String × β)) (k : String) (v : β)
    (h : m.any (fun p => p.1 == k) = false) :
    m.map (fun p => if p.1 == k then (k, v) else p) = m := by
  induction m with
  | nil => rfl
  | cons a m ih =>
    simp only [List.any_cons, Bool.or_eq_false_iff] at h
    simp only [List.map_cons]
    rw [show (if a.1 == k then (k, v) else a) = a by simp [h.1], ih h.2]

theorem mapKeys_set {β : Type} (m : List (String × β)) (k : String) (v : β) :
    mapKeys (mapSet m k v) = if m.any (fun p => p.1 == k) then mapKeys m else mapKeys m ++ [k] := by
  by_cases h : m.any (fun p => p.1 == k)
  · rw [if_pos h]
    unfold mapSet
    rw [if_pos h]
    exact mapKeys_replace m k v
  · rw [if_neg h]
    unfold mapSet
    rw [if_neg h]
    simp [mapKeys]

theorem key_mem_iff_any {β : Type} (m : List (String × β)) (k : String) :
    k ∈ mapKeys m ↔ m.any (fun p => p.1 == k) = true := by
  simp only [mapKeys, List.any_eq_true, List.mem_map, beq_iff_eq]

theorem any_key_eq_false_iff {β : Type} (m : List (String × β)) (k : String) :
    m.any (fun p => p.1 == k) = false ↔ k ∉ mapKeys m := by
  constructor
  · intro h hk
    rw [key_mem_iff_any, h] at hk
    exact Bool.false_ne_true hk
  · intro h
    cases hany : m.any (fun p => p.1 == k) with
    | false => rfl
    | true => exact absurd ((key_mem_iff_any m k).mpr hany) h

theorem mapKeys_set_nodup {β : Type} {m : List (String × β)} (k : String) (v : β)
    (hnd : (mapKeys m).Nodup) : (mapKeys (mapSet m k v)).Nodup := by
  rw [mapKeys_set]
  by_cases h : m.any (fun p => p.1 == k)
  · rw [if_pos h]
    exact hnd
  · rw [if_neg h]
    have hb : m.any (fun p => p.1 == k) = false := by
      rw [Bool.not_eq_true] at h
      exact h
    have hk : k ∉ mapKeys m := (any_key_eq_false_iff m k).mp hb
    simpa [List.nodup_append] using ⟨hnd, hk⟩

theorem mapKeys_del_sublist {β : Type} (m : List (String × β)) (k : String) :
    (mapKeys (mapDel m k)).Sublist (mapKeys m) :=
  List.Sublist.map Prod.fst (List.filter_sublist m)

theorem mapKeys_del_nodup {β : Type} {m : List (String × β)} (k : String)
    (hnd : (mapKeys m).Nodup) : (mapKeys (mapDel m k)).Nodup :=
  (mapKeys_del_sublist m k).nodup hnd

theorem mapGet_replace_self {β : Type} (m : List (String × β)) (k : String) (v : β)
    (h : m.any (fun p => p.1 == k) = true) :
    mapGet (m.map (fun p => if p.1 == k then (k, v) else p)) k = some v := by
  induction m with
  | nil => simp at h
  | cons a m ih =>
    by_cases hk : a.1 = k
    · simp only [List.map_cons]
      rw [show (if a.1 == k then (k, v) else a) = (k, v) by simp [hk]]
      simp [mapGet_cons]
    · simp only [List.any_cons, Bool.or_eq_true] at h
      rcases h with h | h
      · exact absurd (by simpa using h) hk
      · simp only [List.map_cons]
        rw [show (if a.1 == k then (k, v) else a) = a by simp [hk]]
        rw [mapGet_cons, if_neg hk]
        exact ih h

theorem mapGet_set_self {β : Type} (m : List (String × β)) (k : String) (v : β) :
    mapGet (mapSet m k v) k = some v := by
  by_cases h : m.any (fun p => p.1 == k)
  · simp only [mapSet, h, if_pos]
    exact mapGet_replace_self m k v h
  · unfold mapSet
    rw [if_neg h, mapGet_append]
    have hb : m.any (fun p => p.1 == k) = false := by
      rw [Bool.not_eq_true] at h
      exact h
    have hnone : mapGet m k = none :=
      (mapGet_eq_none_iff m k).mpr ((any_key_eq_false_iff m k).mp hb)
    simp [hnone, mapGet_cons]

theorem mapGet_replace_other {β : Type} (m : List (String × β)) (k k' : String) (v : β)
    (hne : k' ≠ k) :
    mapGet (m.map (fun p => if p.1 == k then (k, v) else p)) k' = mapGet m k' := by
  induction m with
  | nil => rfl
  | cons a m ih =>
    simp only [List.map_cons]
    by_cases hk : a.1 = k
    · rw [show (if a.1 == k then (k, v) else a) = (k, v) by simp [hk]]
      rw [mapGet_cons, mapGet_cons, if_neg (Ne.symm hne)]
      rw [if_neg (by rw [hk]; exact Ne.symm hne)]
      exact ih
    · rw [show (if a.1 == k then (k, v) else a) = a by simp [hk]]
      rw [mapGet_cons, mapGet_cons]
      by_cases ha : a.1 = k'
      · simp [ha]
      · rw [if_neg ha, if_neg ha]
        exact ih

theorem mapGet_set_other {β : Type} (m : List (String × β)) (k k' : String) (v : β)
    (hne : k' ≠ k) : mapGet (mapSet m k v) k' = mapGet m k' := by
  by_cases h : m.any (fun p => p.1 == k)
  · simp only [mapSet, h, if_pos]
    exact mapGet_replace_other m k k' v hne
  · unfold mapSet
    rw [if_neg h, mapGet_append]
    cases hm : mapGet m k' with
    | some v' => rfl
    | none =>
      rw [mapGet_cons, if_neg (Ne.symm hne)]
      rfl

theorem mapGet_del_self {β : Type} (m : List (String × β)) (k : String) :
    mapGet (mapDel m k) k = none := by
  rw [mapGet_eq_none_iff]
  intro hk
  rcases List.mem_map.mp hk with ⟨p, hp, hpk⟩
  rcases List.mem_filter.mp hp with ⟨_, hcond⟩
  simp [hpk] at hcond

theorem mapGet_del_other {β : Type} (m : List (String × β)) (k k' : String)
    (hne : k' ≠ k) : mapGet (mapDel m k) k' = mapGet m k' := by
  induction m with
  | nil => rfl
  | cons a m ih =>
    by_cases hk : a.1 = k
    · rw [show mapDel (a :: m) k = mapDel m k by simp [mapDel, List.filter_cons, hk]]
      rw [ih, mapGet_cons, if_neg (by rw [hk]; exact Ne.symm hne)]
    · rw [show mapDel (a :: m) k = a :: mapDel m k by simp [mapDel, List.filter_cons, hk]]
      rw [mapGet_cons, mapGet_cons, ih]

/-!
## Trace lemmas
-/

theorem eventsOf_nil (id : String) : eventsOf id [] = [] := rfl

theorem eventsOf_append (id : String) (tr tr' : List SyncEvent) :
    eventsOf id (tr ++ tr') = eventsOf id tr ++ eventsOf id tr' := by
  simp [eventsOf]

theorem eventsOf_start_self (id : String) (c : Option JsValue) :
    eventsOf id [SyncEvent.start id c] = [SyncEvent.start id c] := by
  simp [eventsOf, SyncEvent.instId]

theorem eventsOf_stop_self (id : String) (b : Bool) :
    eventsOf id [SyncEvent.stop id b] = [SyncEvent.stop id b] := by
  simp [eventsOf, SyncEvent.instId]

theorem eventsOf_singleton_other (id : String) (e : SyncEvent) (h : e.instId ≠ id) :
    eventsOf id [e] = [] := by
  simp [eventsOf, h]

/-!
## Reconciliation step lemmas
-/

theorem startBackend_snapshots (env : BackendEnv) (acc : SyncState × List SyncEvent)
    (id : String) (item : LayoutItem) :
    (startBackend env acc id item).1.snapshots = acc.1.snapshots := by
  unfold startBackend
  cases handleOf (env.init item) item <;> rfl

theorem startBackend_trace (env : BackendEnv) (acc : SyncState × List SyncEvent)
    (id : String) (item : LayoutItem) :
    (startBackend env acc id item).2 = acc.2 ++ [SyncEvent.start id item.config] := by
  unfold startBackend
  cases handleOf (env.init item) item <;> rfl

theorem startBackend_get_self (env : BackendEnv) (acc : SyncState × List SyncEvent)
    (id : String) (item : LayoutItem) (hnone : mapGet acc.1.backends id = none) :
    mapGet (startBackend env acc id item).1.backends id = handleOf (env.init item) item := by
  unfold startBackend
  cases h : handleOf (env.init item) item with
  | some hdl => simpa using mapGet_set_self acc.1.backends id hdl
  | none => simpa using hnone

theorem startBackend_get_other (env : BackendEnv) (acc : SyncState × List SyncEvent)
    (id : String) (item : LayoutItem) (k : String) (hne : k ≠ id) :
    mapGet (startBackend env acc id item).1.backends k = mapGet acc.1.backends k := by
  unfold startBackend
  cases h : handleOf (env.init item) item with
  | some hdl => simpa using mapGet_set_other acc.1.backends id k hdl hne
  | none => rfl

theorem startBackend_nodup (env : BackendEnv) (acc : SyncState × List SyncEvent)
    (id : String) (item : LayoutItem) (hnd : (mapKeys acc.1.backends).Nodup) :
    (mapKeys (startBackend env acc id item).1.backends).Nodup := by
  unfold startBackend
  cases h : handleOf (env.init item) item with
  | some hdl => simpa using mapKeys_set_nodup id hdl hnd
  | none => simpa using hnd

theorem phase1Step_snapshots (env : BackendEnv) (acc : SyncState × List SyncEvent)
    (entry : String × LayoutItem) :
    (phase1Step env acc entry).1.snapshots = acc.1.snapshots := by
  unfold phase1Step
  cases hm : mapGet acc.1.backends entry.1 with
  | none => exact startBackend_snapshots env acc entry.1 entry.2
  | some existing =>
    dsimp only
    by_cases hc : orEmptyObj existing.config ≠ orEmptyObj entry.2.config
    · rw [if_pos hc]
      exact startBackend_snapshots env _ entry.1 entry.2
    · rw [if_neg hc]

theorem phase1Step_trace (env : BackendEnv) (acc : SyncState × List SyncEvent)
    (entry : String × LayoutItem) :
    (phase1Step env acc entry).2
      = acc.2 ++ phase1LocalTrace env entry.1 entry.2 (mapGet acc.1.backends entry.1) := by
  unfold phase1Step phase1LocalTrace
  cases hm : mapGet acc.1.backends entry.1 with
  | none => exact startBackend_trace env acc entry.1 entry.2
  | some existing =>
    dsimp only
    by_cases hc : orEmptyObj existing.config ≠ orEmptyObj entry.2.config
    · rw [if_pos hc, if_pos hc, startBackend_trace]
      simp
    · rw [if_neg hc, if_neg hc]
      simp

theorem phase1Step_get_self (env : BackendEnv) (acc : SyncState × List SyncEvent)
    (entry : String × LayoutItem) :
    mapGet (phase1Step env acc entry).1.backends entry.1
      = phase1LocalHandle env entry.2 (mapGet acc.1.backends entry.1) := by
  unfold phase1Step phase1LocalHandle
  cases hm : mapGet acc.1.backends entry.1 with
  | none => exact startBackend_get_self env acc entry.1 entry.2 hm
  | some existing =>
    dsimp only
    by_cases hc : orEmptyObj existing.config ≠ orEmptyObj entry.2.config
    · rw [if_pos hc, if_pos hc]
      exact startBackend_get_self env _ entry.1 entry.2
        (by simpa using mapGet_del_self acc.1.backends entry.1)
    · rw [if_neg hc, if_neg hc]
      exact hm

theorem phase1Step_get_other (env : BackendEnv) (acc : SyncState × List SyncEvent)
    (entry : String × LayoutItem) (k : String) (hne : k ≠ entry.1) :
    mapGet (phase1Step env acc entry).1.backends k = mapGet acc.1.backends k := by
  unfold phase1Step
  cases hm : mapGet acc.1.backends entry.1 with
  | none => exact startBackend_get_other env acc entry.1 entry.2 k hne
  | some existing =>
    dsimp only
    by_cases hc : orEmptyObj existing.config ≠ orEmptyObj entry.2.config
    · rw [if_pos hc, startBackend_get_other env _ entry.1 entry.2 k hne]
      simpa using mapGet_del_other acc.1.backends entry.1 k hne
    · rw [if_neg hc]

theorem phase1Step_nodup (env : BackendEnv) (acc : SyncState × List SyncEvent)
    (entry : String × LayoutItem) (hnd : (mapKeys acc.1.backends).Nodup) :
    (mapKeys (phase1Step env acc entry).1.backends).Nodup := by
  unfold phase1Step
  cases hm : mapGet acc.1.backends entry.1 with
  | none => exact startBackend_nodup env acc entry.1 entry.2 hnd
  | some existing =>
    dsimp only
    by_cases hc : orEmptyObj existing.config ≠ orEmptyObj entry.2.config
    · rw [if_pos hc]
      exact startBackend_nodup env _ entry.1 entry.2
        (by simpa using mapKeys_del_nodup entry.1 hnd)
    · rw [if_neg hc]
      exact hnd

theorem eventsOf_phase1LocalTrace_self (env : BackendEnv) (id : String) (item : LayoutItem)
    (b : Option BackendHandle) :
    eventsOf id (phase1LocalTrace env id item b) = phase1LocalTrace env id item b := by
  unfold phase1LocalTrace
  cases b with
  | none => exact eventsOf_start_self id item.config
  | some h =>
    dsimp only
    by_cases hc : orEmptyObj h.config ≠ orEmptyObj item.config
    · rw [if_pos hc]
      simp [eventsOf, SyncEvent.instId]
    · rw [if_neg hc]
      rfl

theorem eventsOf_phase1LocalTrace_other (env : BackendEnv) (id : String) (item : LayoutItem)
    (b : Option BackendHandle) (k : String) (hne : k ≠ id) :
    eventsOf k (phase1LocalTrace env id item b) = [] := by
  unfold phase1LocalTrace
  cases b with
  | none => exact eventsOf_singleton_other k _ (by simpa [SyncEvent.instId] using Ne.symm hne)
  | some h =>
    dsimp only
    by_cases hc : orEmptyObj h.config ≠ orEmptyObj item.config
    · rw [if_pos hc]
      simp [eventsOf, SyncEvent.instId, Ne.symm hne]
    · rw [if_neg hc]
      rfl

theorem phase1Step_eventsOf_other (env : BackendEnv) (acc : SyncState × List SyncEvent)
    (entry : String × LayoutItem) (k : String) (hne : k ≠ entry.1) :
    eventsOf k (phase1Step env acc entry).2 = eventsOf k acc.2 := by
  rw [phase1Step_trace, eventsOf_append,
    eventsOf_phase1LocalTrace_other env entry.1 entry.2 _ k hne, List.append_nil]

/-!
## Phase 1 fold lemmas
-/

theorem phase1_fold_snapshots (env : BackendEnv) (as : List (String × LayoutItem))
    (acc : SyncState × List SyncEvent) :
    (as.foldl (phase1Step env) acc).1.snapshots = acc.1.snapshots := by
  induction as generalizing acc with
  | nil => rfl
  | cons a as ih =>
    simp only [List.foldl_cons]
    rw [ih (phase1Step env acc a), phase1Step_snapshots]

theorem phase1_fold_nodup (env : BackendEnv) (as : List (String × LayoutItem))
    (acc : SyncState × List SyncEvent) (hnd : (mapKeys acc.1.backends).Nodup) :
    (mapKeys ((as.foldl (phase1Step env) acc)).1.backends).Nodup := by
  induction as generalizing acc with
  | nil => exact hnd
  | cons a as ih =>
    simp only [List.foldl_cons]
    exact ih (phase1Step env acc a) (phase1Step_nodup env acc a hnd)

theorem phase1_fold_frame (env : BackendEnv) (as : List (String × LayoutItem))
    (acc : SyncState × List SyncEvent) (id : String) (hid : id ∉ as.map Prod.fst) :
    mapGet ((as.foldl (phase1Step env) acc)).1.backends id = mapGet acc.1.backends id
    ∧ eventsOf id (as.foldl (phase1Step env) acc).2 = eventsOf id acc.2 := by
  induction as generalizing acc with
  | nil => exact ⟨rfl, rfl⟩
  | cons a as ih =>
    have hne : id ≠ a.1 := by
      intro h
      exact hid (by simp [h])
    have hid' : id ∉ as.map Prod.fst := by
      intro h
      exact hid (by simp [h])
    simp only [List.foldl_cons]
    obtain ⟨h1, h2⟩ := ih (phase1Step env acc a) hid'
    exact ⟨by rw [h1, phase1Step_get_other env acc a id hne],
      by rw [h2, phase1Step_eventsOf_other env acc a id hne]⟩

theorem phase1_fold_self (env : BackendEnv) (as : List (String × LayoutItem))
    (acc : SyncState × List SyncEvent) (id : String) (item : LayoutItem)
    (hnd : (as.map Prod.fst).Nodup) (hget : mapGet as id = some item) :
    mapGet ((as.foldl (phase1Step env) acc)).1.backends id
        = phase1LocalHandle env item (mapGet acc.1.backends id)
    ∧ eventsOf id (as.foldl (phase1Step env) acc).2
        = eventsOf id acc.2 ++ phase1LocalTrace env id item (mapGet acc.1.backends id) := by
  induction as generalizing acc with
  | nil => simp [mapGet] at hget
  | cons a as ih =>
    simp only [List.foldl_cons]
    by_cases hk : a.1 = id
    · have hitem : a.2 = item := by
        rw [mapGet_cons, if_pos hk] at hget
        injection hget
      have ha : a = (id, item) := by
        cases a
        simp_all
      have hid' : id ∉ as.map Prod.fst := by
        rw [List.map_cons, List.nodup_cons] at hnd
        rw [← hk]
        exact hnd.1
      obtain ⟨f1, f2⟩ := phase1_fold_frame env as (phase1Step env acc a) id hid'
      rw [f1, f2, ha]
      constructor
      · exact phase1Step_get_self env acc (id, item)
      · rw [phase1Step_trace env acc (id, item), eventsOf_append]
        rw [eventsOf_phase1LocalTrace_self]
    · have hget' : mapGet as id = some item := by
        rw [mapGet_cons, if_neg hk] at hget
        exact hget
      have hnd' : (as.map Prod.fst).Nodup := by
        rw [List.map_cons, List.nodup_cons] at hnd
        exact hnd.2
      obtain ⟨g1, g2⟩ := ih (phase1Step env acc a) hnd' hget'
      have hne : id ≠ a.1 := fun h => hk h.symm
      rw [g1, g2, phase1Step_get_other env acc a id hne,
        phase1Step_eventsOf_other env acc a id hne]
      exact ⟨rfl, rfl⟩

theorem phase1_fold_noop (env : BackendEnv) (as : List (String × LayoutItem))
    (acc : SyncState × List SyncEvent)
    (h : ∀ p ∈ as, ∃ hdl, mapGet acc.1.backends p.1 = some hdl
        ∧ orEmptyObj hdl.config = orEmptyObj p.2.config) :
    as.foldl (phase1Step env) acc = acc := by
  induction as with
  | nil => rfl
  | cons a as ih =>
    obtain ⟨hdl, hget, hcfg⟩ := h a (List.mem_cons_self a as)
    have hstep : phase1Step env acc a = acc := by
      unfold phase1Step
      rw [hget]
      dsimp only
      rw [if_neg (by simpa using hcfg)]
    simp only [List.foldl_cons, hstep]
    exact ih (fun p hp => h p (List.mem_cons_of_mem a hp))

/-!
## Phase 2 fold lemmas
-/

theorem phase2Step_eq_active (active : List (String × LayoutItem))
    (acc : SyncState × List SyncEvent) (entry : String × BackendHandle)
    (h : (mapGet active entry.1).isSome = true) :
    phase2Step active acc entry = acc := by
  unfold phase2Step
  rw [if_pos h]

theorem phase2Step_eq_inactive (active : List (String × LayoutItem))
    (acc : SyncState × List SyncEvent) (entry : String × BackendHandle)
    (h : (mapGet active entry.1).isSome = false) :
    phase2Step active acc entry =
      (⟨mapDel acc.1.backends entry.1, mapDel acc.1.snapshots entry.1⟩,
        acc.2 ++ [SyncEvent.stop entry.1 entry.2.cleanupThrows]) := by
  unfold phase2Step
  rw [if_neg (by rw [h]; exact Bool.false_ne_true)]

theorem phase2Step_other (active : List (String × LayoutItem))
    (acc : SyncState × List SyncEvent) (entry : String × BackendHandle)
    (k : String) (hne : k ≠ entry.1) :
    mapGet (phase2Step active acc entry).1.backends k = mapGet acc.1.backends k
    ∧ mapGet (phase2Step active acc entry).1.snapshots k = mapGet acc.1.snapshots k
    ∧ eventsOf k (phase2Step active acc entry).2 = eventsOf k acc.2 := by
  cases h : (mapGet active entry.1).isSome with
  | true => rw [phase2Step_eq_active active acc entry h]; exact ⟨rfl, rfl, rfl⟩
  | false =>
    rw [phase2Step_eq_inactive active acc entry h]
    refine ⟨?_, ?_, ?_⟩
    · simpa using mapGet_del_other acc.1.backends entry.1 k hne
    · simpa using mapGet_del_other acc.1.snapshots entry.1 k hne
    · rw [eventsOf_append, eventsOf_singleton_other k _ (by simpa [SyncEvent.instId] using Ne.symm hne)]
      simp

theorem phase2Step_nodup (active : List (String × LayoutItem))
    (acc : SyncState × List SyncEvent) (entry : String × BackendHandle)
    (hnd : (mapKeys acc.1.backends).Nodup) :
    (mapKeys (phase2Step active acc entry).1.backends).Nodup := by
  cases h : (mapGet active entry.1).isSome with
  | true => rw [phase2Step_eq_active active acc entry h]; exact hnd
  | false =>
    rw [phase2Step_eq_inactive active acc entry h]
    simpa using mapKeys_del_nodup entry.1 hnd

theorem phase2_fold_nodup (active : List (String × LayoutItem))
    (bs : List (String × BackendHandle)) (acc : SyncState × List SyncEvent)
    (hnd : (mapKeys acc.1.backends).Nodup) :
    (mapKeys ((bs.foldl (phase2Step active) acc)).1.backends).Nodup := by
  induction bs generalizing acc with
  | nil => exact hnd
  | cons b bs ih =>
    simp only [List.foldl_cons]
    exact ih (phase2Step active acc b) (phase2Step_nodup active acc b hnd)

theorem phase2_fold_frame (active : List (String × LayoutItem))
    (bs : List (String × BackendHandle)) (acc : SyncState × List SyncEvent)
    (id : String) (hid : id ∉ bs.map Prod.fst) :
    mapGet ((bs.foldl (phase2Step active) acc)).1.backends id = mapGet acc.1.backends id
    ∧ mapGet ((bs.foldl (phase2Step active) acc)).1.snapshots id = mapGet acc.1.snapshots id
    ∧ eventsOf id (bs.foldl (phase2Step active) acc).2 = eventsOf id acc.2 := by
  induction bs generalizing acc with
  | nil => exact ⟨rfl, rfl, rfl⟩
  | cons b bs ih =>
    have hne : id ≠ b.1 := by
      intro h
      exact hid (by simp [h])
    have hid' : id ∉ bs.map Prod.fst := by
      intro h
      exact hid (by simp [h])
    simp only [List.foldl_cons]
    obtain ⟨h1, h2, h3⟩ := ih (phase2Step active acc b) hid'
    obtain ⟨s1, s2, s3⟩ := phase2Step_other active acc b id hne
    exact ⟨by rw [h1, s1], by rw [h2, s2], by rw [h3, s3]⟩

theorem phase2_fold_active (active : List (String × LayoutItem))
    (bs : List (String × BackendHandle)) (acc : SyncState × List SyncEvent)
    (id : String) (hact : (mapGet active id).isSome = true) :
    mapGet ((bs.foldl (phase2Step active) acc)).1.backends id = mapGet acc.1.backends id
    ∧ mapGet ((bs.foldl (phase2Step active) acc)).1.snapshots id = mapGet acc.1.snapshots id
    ∧ eventsOf id (bs.foldl (phase2Step active) acc).2 = eventsOf id acc.2 := by
  induction bs generalizing acc with
  | nil => exact ⟨rfl, rfl, rfl⟩
  | cons b bs ih =>
    simp only [List.foldl_cons]
    by_cases hb : id = b.1
    · have hstep : phase2Step active acc b = acc :=
        phase2Step_eq_active active acc b (by rw [← hb]; exact hact)
      rw [hstep]
      exact ih acc
    · obtain ⟨h1, h2, h3⟩ := ih (phase2Step active acc b)
      obtain ⟨s1, s2, s3⟩ := phase2Step_other active acc b id hb
      exact ⟨by rw [h1, s1], by rw [h2, s2], by rw [h3, s3]⟩

theorem phase2_fold_kill (active : List (String × LayoutItem))
    (bs : List (String × BackendHandle)) (acc : SyncState × List SyncEvent)
    (id : String) (hdl : BackendHandle)
    (hnd : (bs.map Prod.fst).Nodup) (hact : (mapGet active id).isSome = false)
    (hget : mapGet bs id = some hdl) :
    mapGet ((bs.foldl (phase2Step active) acc)).1.backends id = none
    ∧ mapGet ((bs.foldl (phase2Step active) acc)).1.snapshots id = none
    ∧ eventsOf id (bs.foldl (phase2Step active) acc).2
        = eventsOf id acc.2 ++ [SyncEvent.stop id hdl.cleanupThrows] := by
  induction bs generalizing acc with
  | nil => simp [mapGet] at hget
  | cons b bs ih =>
    simp only [List.foldl_cons]
    by_cases hk : b.1 = id
    · have hb : b = (id, hdl) := by
        rw [mapGet_cons, if_pos hk] at hget
        have : b.2 = hdl := by injection hget
        cases b
        simp_all
      have hid' : id ∉ bs.map Prod.fst := by
        rw [List.map_cons, List.nodup_cons] at hnd
        rw [← hk]
        exact hnd.1
      have hstep : phase2Step active acc b =
          (⟨mapDel acc.1.backends id, mapDel acc.1.snapshots id⟩,
            acc.2 ++ [SyncEvent.stop id hdl.cleanupThrows]) := by
        rw [hb]
        exact phase2Step_eq_inactive active acc (id, hdl) hact
      obtain ⟨f1, f2, f3⟩ := phase2_fold_frame active bs
        (⟨mapDel acc.1.backends id, mapDel acc.1.snapshots id⟩,
          acc.2 ++ [SyncEvent.stop id hdl.cleanupThrows]) id hid'
      rw [hstep]
      refine ⟨?_, ?_, ?_⟩
      · rw [f1]
        exact mapGet_del_self acc.1.backends id
      · rw [f2]
        exact mapGet_del_self acc.1.snapshots id
      · rw [f3, eventsOf_append, eventsOf_stop_self]
    · have hget' : mapGet bs id = some hdl := by
        rw [mapGet_cons, if_neg hk] at hget
        exact hget
      have hnd' : (bs.map Prod.fst).Nodup := by
        rw [List.map_cons, List.nodup_cons] at hnd
        exact hnd.2
      have hne : id ≠ b.1 := fun h => hk h.symm
      obtain ⟨g1, g2, g3⟩ := ih (phase2Step active acc b) hnd' hget'
      obtain ⟨s1, s2, s3⟩ := phase2Step_other active acc b id hne
      exact ⟨by rw [g1], by rw [g2], by rw [g3, s3]⟩

theorem phase2_fold_noop (active : List (String × LayoutItem))
    (bs : List (String × BackendHandle)) (acc : SyncState × List SyncEvent)
    (h : ∀ p ∈ bs, (mapGet active p.1).isSome = true) :
    bs.foldl (phase2Step active) acc = acc := by
  induction bs with
  | nil => rfl
  | cons b bs ih =>
    simp only [List.foldl_cons,
      phase2Step_eq_active active acc b (h b (List.mem_cons_self b bs))]
    exact ih (fun p hp => h p (List.mem_cons_of_mem b hp))

/-!
## Whole-pass lemmas
-/

theorem computeActive_go_nodup (reg : List String) (layout : List LayoutItem)
    (m : List (String × LayoutItem)) (hnd : (mapKeys m).Nodup) :
    (mapKeys (layout.foldl
      (fun m item => if reg.contains item.widgetId then mapSet m item.i item else m) m)).Nodup := by
  induction layout generalizing m with
  | nil => exact hnd
  | cons it l ih =>
    simp only [List.foldl_cons]
    by_cases h : reg.contains it.widgetId
    · rw [if_pos h]
      exact ih (mapSet m it.i it) (mapKeys_set_nodup it.i it hnd)
    · rw [if_neg h]
      exact ih m hnd

theorem computeActiveInstances_nodup (reg : List String) (layout : List LayoutItem) :
    ((computeActiveInstances reg layout).map Prod.fst).Nodup :=
  computeActive_go_nodup reg layout [] List.nodup_nil

theorem sync_nodup (env : BackendEnv) (layout : List LayoutItem) (st : SyncState)
    (hnd : (mapKeys st.backends).Nodup) :
    (mapKeys (syncState env layout st).backends).Nodup := by
  unfold syncState syncWidgetBackends
  exact phase2_fold_nodup _ _ _ (phase1_fold_nodup env _ (st, []) hnd)

theorem sync_desired (env : BackendEnv) (layout : List LayoutItem) (st : SyncState)
    (id : String) (item : LayoutItem)
    (hact : mapGet (computeActiveInstances env.registry layout) id = some item) :
    mapGet (syncState env layout st).backends id
        = phase1LocalHandle env item (mapGet st.backends id)
    ∧ eventsOf id (syncTrace env layout st)
        = phase1LocalTrace env id item (mapGet st.backends id)
    ∧ mapGet (syncState env layout st).snapshots id = mapGet st.snapshots id := by
  unfold syncState syncTrace syncWidgetBackends
  obtain ⟨p1, p2⟩ := phase1_fold_self env (computeActiveInstances env.registry layout)
    (st, []) id item (computeActiveInstances_nodup env.registry layout) hact
  have hsnap := phase1_fold_snapshots env (computeActiveInstances env.registry layout) (st, [])
  obtain ⟨q1, q2, q3⟩ := phase2_fold_active (computeActiveInstances env.registry layout)
    ((computeActiveInstances env.registry layout).foldl (phase1Step env) (st, [])).1.backends
    ((computeActiveInstances env.registry layout).foldl (phase1Step env) (st, []))
    id (by rw [hact]; rfl)
  refine ⟨?_, ?_, ?_⟩
  · rw [q1, p1]
  · rw [q3, p2]
    simp [eventsOf]
  · rw [q2, hsnap]

theorem sync_removed (env : BackendEnv) (layout : List LayoutItem) (st : SyncState)
    (id : String) (hdl : BackendHandle)
    (hnd : (mapKeys st.backends).Nodup)
    (hact : mapGet (computeActiveInstances env.registry layout) id = none)
    (hbk : mapGet st.backends id = some hdl) :
    mapGet (syncState env layout st).backends id = none
    ∧ mapGet (syncState env layout st).snapshots id = none
    ∧ eventsOf id (syncTrace env layout st) = [SyncEvent.stop id hdl.cleanupThrows] := by
  unfold syncState syncTrace syncWidgetBackends
  have hnotin : id ∉ (computeActiveInstances env.registry layout).map Prod.fst :=
    (mapGet_eq_none_iff _ id).mp hact
  obtain ⟨f1, f2⟩ := phase1_fold_frame env (computeActiveInstances env.registry layout)
    (st, []) id hnotin
  have hsnap := phase1_fold_snapshots env (computeActiveInstances env.registry layout) (st, [])
  obtain ⟨k1, k2, k3⟩ := phase2_fold_kill (computeActiveInstances env.registry layout)
    ((computeActiveInstances env.registry layout).foldl (phase1Step env) (st, [])).1.backends
    ((computeActiveInstances env.registry layout).foldl (phase1Step env) (st, []))
    id hdl
    (phase1_fold_nodup env _ (st, []) hnd)
    (by rw [hact]; rfl)
    (by rw [f1]; exact hbk)
  refine ⟨k1, k2, ?_⟩
  · rw [k3, f2]
    rfl

theorem sync_absent (env : BackendEnv) (layout : List LayoutItem) (st : SyncState)
    (id : String)
    (hact : mapGet (computeActiveInstances env.registry layout) id = none)
    (hbk : mapGet st.backends id = none) :
    mapGet (syncState env layout st).backends id = none
    ∧ mapGet (syncState env layout st).snapshots id = mapGet st.snapshots id
    ∧ eventsOf id (syncTrace env layout st) = [] := by
  unfold syncState syncTrace syncWidgetBackends
  have hnotin : id ∉ (computeActiveInstances env.registry layout).map Prod.fst :=
    (mapGet_eq_none_iff _ id).mp hact
  obtain ⟨f1, f2⟩ := phase1_fold_frame env (computeActiveInstances env.registry layout)
    (st, []) id hnotin
  have hsnap := phase1_fold_snapshots env (computeActiveInstances env.registry layout) (st, [])
  have hbs : id ∉ (((computeActiveInstances env.registry layout).foldl (phase1Step env)
      (st, [])).1.backends).map Prod.fst := by
    apply (mapGet_eq_none_iff _ id).mp
    rw [f1]
    exact hbk
  obtain ⟨g1, g2, g3⟩ := phase2_fold_frame (computeActiveInstances env.registry layout)
    ((computeActiveInstances env.registry layout).foldl (phase1Step env) (st, [])).1.backends
    ((computeActiveInstances env.registry layout).foldl (phase1Step env) (st, []))
    id hbs
  refine ⟨?_, ?_, ?_⟩
  · rw [g1, f1]
    exact hbk
  · rw [g2, hsnap]
  · rw [g3, f2]
    rfl

theorem sync_inactive_none (env : BackendEnv) (layout : List LayoutItem) (st : SyncState)
    (id : String)
    (hnd : (mapKeys st.backends).Nodup)
    (hact : mapGet (computeActiveInstances env.registry layout) id = none) :
    mapGet (syncState env layout st).backends id = none := by
  cases hbk : mapGet st.backends id with
  | some hdl => exact (sync_removed env layout st id hdl hnd hact hbk).1
  | none => exact (sync_absent env layout st id hact hbk).1

theorem handleOf_of_not_throws (outcome : InitOutcome) (item : LayoutItem)
    (h : outcome ≠ InitOutcome.throws) :
    ∃ c, handleOf outcome item = some ⟨c, item.config⟩ := by
  cases outcome with
  | throws => exact absurd rfl h
  | fnResult c => exact ⟨c, rfl⟩
  | objResult c => exact ⟨c.getD false, rfl⟩
  | otherResult => exact ⟨false, rfl⟩

theorem sync_post_desired (env : BackendEnv) (layout : List LayoutItem) (st : SyncState)
    (id : String) (item : LayoutItem)
    (hact : mapGet (computeActiveInstances env.registry layout) id = some item)
    (hsucc : env.init item ≠ InitOutcome.throws) :
    ∃ hdl, mapGet (syncState env layout st).backends id = some hdl
      ∧ orEmptyObj hdl.config = orEmptyObj item.config := by
  obtain ⟨d1, _, _⟩ := sync_desired env layout st id item hact
  rw [d1]
  unfold phase1LocalHandle
  obtain ⟨c, hc⟩ := handleOf_of_not_throws (env.init item) item hsucc
  cases hbk : mapGet st.backends id with
  | none =>
    dsimp only
    exact ⟨⟨c, item.config⟩, hc, rfl⟩
  | some h0 =>
    dsimp only
    by_cases hcfg : orEmptyObj h0.config ≠ orEmptyObj item.config
    · rw [if_pos hcfg]
      exact ⟨⟨c, item.config⟩, hc, rfl⟩
    · rw [if_neg hcfg]
      exact ⟨h0, rfl, not_ne_iff.mp hcfg⟩

theorem sync_noop (env : BackendEnv) (layout : List LayoutItem) (st : SyncState)
    (hnd : (mapKeys st.backends).Nodup)
    (hsucc : ∀ id item, mapGet (computeActiveInstances env.registry layout) id = some item →
      env.init item ≠ InitOutcome.throws) :
    syncWidgetBackends env layout (syncState env layout st) = (syncState env layout st, []) := by
  have hA : ∀ p ∈ computeActiveInstances env.registry layout,
      ∃ hdl, mapGet (syncState env layout st).backends p.1 = some hdl
        ∧ orEmptyObj hdl.config = orEmptyObj p.2.config := by
    intro p hp
    have hmem : mapGet (computeActiveInstances env.registry layout) p.1 = some p.2 :=
      mem_mapGet (computeActiveInstances_nodup env.registry layout) hp
    exact sync_post_desired env layout st p.1 p.2 hmem (hsucc p.1 p.2 hmem)
  have h1 : (computeActiveInstances env.registry layout).foldl (phase1Step env)
      (syncState env layout st, []) = (syncState env layout st, []) :=
    phase1_fold_noop env _ _ hA
  have hB : ∀ p ∈ (syncState env layout st).backends,
      (mapGet (computeActiveInstances env.registry layout) p.1).isSome = true := by
    intro p hp
    cases hact : mapGet (computeActiveInstances env.registry layout) p.1 with
    | some it => rfl
    | none =>
      have hsome : mapGet (syncState env layout st).backends p.1 = some p.2 :=
        mem_mapGet (sync_nodup env layout st hnd) hp
      rw [sync_inactive_none env layout st p.1 hnd hact] at hsome
      simp at hsome
  unfold syncWidgetBackends
  rw [h1]
  exact phase2_fold_noop (computeActiveInstances env.registry layout)
    (syncState env layout st).backends (syncState env layout st, []) hB

theorem sync_trace_shape (env : BackendEnv) (layout : List LayoutItem) (st : SyncState)
    (id : String) (hnd : (mapKeys st.backends).Nodup) :
    eventsOf id (syncTrace env layout st) = []
    ∨ (∃ c, eventsOf id (syncTrace env layout st) = [SyncEvent.start id c])
    ∨ (∃ b, eventsOf id (syncTrace env layout st) = [SyncEvent.stop id b])
    ∨ (∃ b c, eventsOf id (syncTrace env layout st)
        = [SyncEvent.stop id b, SyncEvent.start id c]) := by
  cases hact : mapGet (computeActiveInstances env.registry layout) id with
  | some item =>
    obtain ⟨_, d2, _⟩ := sync_desired env layout st id item hact
    rw [d2]
    unfold phase1LocalTrace
    cases hbk : mapGet st.backends id with
    | none =>
      right
      left
      exact ⟨item.config, rfl⟩
    | some h0 =>
      dsimp only
      by_cases hcfg : orEmptyObj h0.config ≠ orEmptyObj item.config
      · rw [if_pos hcfg]
        right
        right
        right
        exact ⟨h0.cleanupThrows, item.config, rfl⟩
      · rw [if_neg hcfg]
        left
        rfl
  | none =>
    cases hbk : mapGet st.backends id with
    | some hdl =>
      obtain ⟨_, _, r3⟩ := sync_removed env layout st id hdl hnd hact hbk
      right
      right
      left
      exact ⟨hdl.cleanupThrows, r3⟩
    | none =>
      left
      exact (sync_absent env layout st id hact hbk).2.2

theorem runPasses_nodup (env : BackendEnv) (layouts : List (List LayoutItem)) :
    (mapKeys (runPasses env layouts).backends).Nodup := by
  unfold runPasses
  have h : ∀ (st : SyncState), (mapKeys st.backends).Nodup →
      (mapKeys (layouts.foldl (fun st l => syncState env l st) st).backends).Nodup := by
    induction layouts with
    | nil => intro st hst; exact hst
    | cons l ls ih =>
      intro st hst
      simp only [List.foldl_cons]
      exact ih (syncState env l st) (sync_nodup env l st hst)
  exact h emptySyncState (by simp [emptySyncState, mapKeys])

/-!
## Claim theorems: backend lifecycle reconciler
-/

/-- C1: for every reconciliation pass and every instance present both in
the layout (with a registered widget type) and in the running-handle map:
if the handle's stored config is not (stringify-)equal to the layout item's
config, the pass performs exactly one stop of the existing handle followed
by exactly one start with the new config for that instance; for every other
desired instance with a handle whose config matches its layout item (in
particular every instance whose layout item is unchanged), the pass
performs zero stop and zero start calls; and when the configs are equal the
handle is left untouched. -/
theorem claim_C1_config_diff_restart (env : BackendEnv) (layout : List LayoutItem)
    (st : SyncState) (id : String) (item : LayoutItem) (hdl : BackendHandle)
    (hact : mapGet (computeActiveInstances env.registry layout) id = some item)
    (hbk : mapGet st.backends id = some hdl) :
    (orEmptyObj hdl.config ≠ orEmptyObj item.config →
      eventsOf id (syncTrace env layout st)
        = [SyncEvent.stop id hdl.cleanupThrows, SyncEvent.start id item.config])
    ∧ (orEmptyObj hdl.config = orEmptyObj item.config →
      eventsOf id (syncTrace env layout st) = []
      ∧ mapGet (syncState env layout st).backends id = some hdl)
    ∧ (∀ id2 item2 hdl2, id2 ≠ id →
        mapGet (computeActiveInstances env.registry layout) id2 = some item2 →
        mapGet st.backends id2 = some hdl2 →
        orEmptyObj hdl2.config = orEmptyObj item2.config →
        eventsOf id2 (syncTrace env layout st) = []
        ∧ mapGet (syncState env layout st).backends id2 = some hdl2) := by
  obtain ⟨d1, d2, _⟩ := sync_desired env layout st id item hact
  refine ⟨?_, ?_, ?_⟩
  · intro hc
    rw [d2, hbk]
    unfold phase1LocalTrace
    dsimp only
    rw [if_pos hc]
  · intro hc
    constructor
    · rw [d2, hbk]
      unfold phase1LocalTrace
      dsimp only
      rw [if_neg (not_ne_iff.mpr hc)]
    · rw [d1, hbk]
      unfold phase1LocalHandle
      dsimp only
      rw [if_neg (not_ne_iff.mpr hc)]
  · intro id2 item2 hdl2 _ hact2 hbk2 hcfg2
    obtain ⟨e1, e2, _⟩ := sync_desired env layout st id2 item2 hact2
    constructor
    · rw [e2, hbk2]
      unfold phase1LocalTrace
      dsimp only
      rw [if_neg (not_ne_iff.mpr hcfg2)]
    · rw [e1, hbk2]
      unfold phase1LocalHandle
      dsimp only
      rw [if_neg (not_ne_iff.mpr hcfg2)]

/-- Witness for C1 at a concrete pass: instance `i1` has its config edited
from `1` to `2` and is restarted with exactly one stop then one start
carrying the new config, while the untouched instance `i2` sees no calls. -/
theorem claim_C1_witness :
    eventsOf "i1" (syncTrace wEnv [wItem2, wItemB] wState)
        = [SyncEvent.stop "i1" false, SyncEvent.start "i1" (some (JsValue.num 2))]
    ∧ eventsOf "i2" (syncTrace wEnv [wItem2, wItemB] wState) = [] := by
  constructor
  · exact (claim_C1_config_diff_restart wEnv [wItem2, wItemB] wState "i1" wItem2 wHandle1
      (by decide) (by decide)).1 (by decide)
  · exact ((claim_C1_config_diff_restart wEnv [wItem2, wItemB] wState "i1" wItem2 wHandle1
      (by decide) (by decide)).2.2 "i2" wItemB wHandleB (by decide) (by decide) (by decide)
      (by decide)).1

/-- C2: at-most-one-handle invariant.  First conjunct: over any sequence of
reconciliation passes from the empty handle map, the handle map's keys stay
duplicate-free, so no two handles ever coexist for one instance id.  Second
and third conjuncts: every individual mutation step of a pass (step 1 and
step 2 per instance) preserves that invariant, so it also holds at every
intermediate point inside a pass.  Fourth conjunct: within a single pass
the lifecycle calls for any one instance are nil, a lone start, a lone
stop, or a stop strictly followed by a start — a restart removes the old
handle (cleanup invoked, entry deleted) before the new handle is
created. -/
theorem claim_C2_at_most_one_handle (env : BackendEnv) :
    (∀ layouts : List (List LayoutItem),
      (mapKeys (runPasses env layouts).backends).Nodup)
    ∧ (∀ (acc : SyncState × List SyncEvent) (entry : String × LayoutItem),
        (mapKeys acc.1.backends).Nodup →
        (mapKeys (phase1Step env acc entry).1.backends).Nodup)
    ∧ (∀ (active : List (String × LayoutItem)) (acc : SyncState × List SyncEvent)
        (entry : String × BackendHandle),
        (mapKeys acc.1.backends).Nodup →
        (mapKeys (phase2Step active acc entry).1.backends).Nodup)
    ∧ (∀ (layout : List LayoutItem) (st : SyncState) (id : String),
        (mapKeys st.backends).Nodup →
        eventsOf id (syncTrace env layout st) = []
        ∨ (∃ c, eventsOf id (syncTrace env layout st) = [SyncEvent.start id c])
        ∨ (∃ b, eventsOf id (syncTrace env layout st) = [SyncEvent.stop id b])
        ∨ (∃ b c, eventsOf id (syncTrace env layout st)
            = [SyncEvent.stop id b, SyncEvent.start id c])) :=
  ⟨fun layouts => runPasses_nodup env layouts,
   fun acc entry hnd => phase1Step_nodup env acc entry hnd,
   fun active acc entry hnd => phase2Step_nodup active acc entry hnd,
   fun layout st id hnd => sync_trace_shape env layout st id hnd⟩

/-- Witness for C2: a concrete three-pass run keeps the handle keys
duplicate-free, and the per-instance call shape holds at a concrete
restarting pass. -/
theorem claim_C2_witness :
    (mapKeys (runPasses wEnv [[wItem1], [wItem2, wItemB], []]).backends).Nodup
    ∧ (eventsOf "i1" (syncTrace wEnv [wItem2, wItemB] wState) = []
      ∨ (∃ c, eventsOf "i1" (syncTrace wEnv [wItem2, wItemB] wState) = [SyncEvent.start "i1" c])
      ∨ (∃ b, eventsOf "i1" (syncTrace wEnv [wItem2, wItemB] wState) = [SyncEvent.stop "i1" b])
      ∨ (∃ b c, eventsOf "i1" (syncTrace wEnv [wItem2, wItemB] wState)
          = [SyncEvent.stop "i1" b, SyncEvent.start "i1" c])) :=
  ⟨(claim_C2_at_most_one_handle wEnv).1 [[wItem1], [wItem2, wItemB], []],
   (claim_C2_at_most_one_handle wEnv).2.2.2 [wItem2, wItemB] wState "i1" (by decide)⟩

/-- Counterexample to C3 as stated: with an unchanged layout, registry and
secrets store, a backend whose initializer deterministically throws is
retried on the second reconciliation pass, so that pass performs a start
call (the design document itself says a failed instance is "naturally
retried" on the next reconciliation).  Concretely, one registered instance
whose initializer throws produces the same single start call on the first
and on the second pass. -/
theorem claim_C3_counterexample :
    syncTrace wEnvThrows [wItemB] (syncState wEnvThrows [wItemB] emptySyncState)
      = [SyncEvent.start "i2" none]
    ∧ syncTrace wEnvThrows [wItemB] (syncState wEnvThrows [wItemB] emptySyncState) ≠ [] := by
  constructor
  · decide
  · decide

/-- C3 as amended: running the reconciliation twice in a row with no
intervening change to the layout, the backend registry or the secrets
store — and provided every desired instance's initializer returned without
throwing (equivalently, every desired instance actually holds a handle
after the first pass) — produces zero start calls and zero stop calls on
the second pass and leaves the handle map and the snapshot map (the whole
server state) unchanged. -/
theorem claim_C3_noop_stability (env : BackendEnv) (layout : List LayoutItem) (st : SyncState)
    (hnd : (mapKeys st.backends).Nodup)
    (hsucc : ∀ id item, mapGet (computeActiveInstances env.registry layout) id = some item →
      env.init item ≠ InitOutcome.throws) :
    syncWidgetBackends env layout (syncState env layout st) = (syncState env layout st, []) :=
  sync_noop env layout st hnd hsucc

/-- Witness for the amended C3 at a concrete pass whose backends all start
successfully. -/
theorem claim_C3_witness :
    syncWidgetBackends wEnv [wItem1, wItemB] (syncState wEnv [wItem1, wItemB] emptySyncState)
      = (syncState wEnv [wItem1, wItemB] emptySyncState, []) :=
  claim_C3_noop_stability wEnv [wItem1, wItemB] emptySyncState (by decide)
    (fun id item _ => by simp [wEnv])

/-- C4: for every instance that has a running handle but is absent from the
desired layout, the pass invokes the handle's cleanup exactly once (its
outcome — normal return or throw — is swallowed, as the conclusion holds
for either value of `cleanupThrows`) and always removes both the handle
entry and the instance's data snapshot. -/
theorem claim_C4_stop_removes (env : BackendEnv) (layout : List LayoutItem) (st : SyncState)
    (id : String) (hdl : BackendHandle)
    (hnd : (mapKeys st.backends).Nodup)
    (hact : mapGet (computeActiveInstances env.registry layout) id = none)
    (hbk : mapGet st.backends id = some hdl) :
    eventsOf id (syncTrace env layout st) = [SyncEvent.stop id hdl.cleanupThrows]
    ∧ mapGet (syncState env layout st).backends id = none
    ∧ mapGet (syncState env layout st).snapshots id = none := by
  obtain ⟨r1, r2, r3⟩ := sync_removed env layout st id hdl hnd hact hbk
  exact ⟨r3, r1, r2⟩

/-- Witness for C4: removing instance `i2`, whose cleanup throws, still
deletes its handle and snapshot after the one cleanup invocation. -/
theorem claim_C4_witness :
    eventsOf "i2" (syncTrace wEnv [wItem2] wState) = [SyncEvent.stop "i2" true]
    ∧ mapGet (syncState wEnv [wItem2] wState).backends "i2" = none
    ∧ mapGet (syncState wEnv [wItem2] wState).snapshots "i2" = none :=
  claim_C4_stop_removes wEnv [wItem2] wState "i2" wHandleB (by decide) (by decide) (by decide)

/-- C10: a reconciliation pass never touches the data snapshot of an
instance that is still desired (in particular a config-diff restart leaves
its snapshot unmodified); the snapshot map changes at an instance id only
in the removal branch — the instance is absent from the desired set, had a
running handle, and its snapshot entry is deleted. -/
theorem claim_C10_snapshot_frame (env : BackendEnv) (layout : List LayoutItem) (st : SyncState)
    (id : String) (hnd : (mapKeys st.backends).Nodup) :
    ((mapGet (computeActiveInstances env.registry layout) id).isSome →
      mapGet (syncState env layout st).snapshots id = mapGet st.snapshots id)
    ∧ (mapGet (syncState env layout st).snapshots id ≠ mapGet st.snapshots id →
      mapGet (computeActiveInstances env.registry layout) id = none
      ∧ (∃ hdl, mapGet st.backends id = some hdl)
      ∧ mapGet (syncState env layout st).snapshots id = none) := by
  constructor
  · intro hsome
    obtain ⟨item, hact⟩ := Option.isSome_iff_exists.mp hsome
    exact (sync_desired env layout st id item hact).2.2
  · intro hne
    cases hact : mapGet (computeActiveInstances env.registry layout) id with
    | some item => exact absurd (sync_desired env layout st id item hact).2.2 hne
    | none =>
      cases hbk : mapGet st.backends id with
      | some hdl =>
        obtain ⟨_, r2, _⟩ := sync_removed env layout st id hdl hnd hact hbk
        exact ⟨rfl, ⟨hdl, rfl⟩, r2⟩
      | none => exact absurd (sync_absent env layout st id hact hbk).2.1 hne

/-- Witness for C10: in the restarting pass, the snapshot of the restarted
instance `i1` is untouched, while the removal of `i2` is the branch that
deletes its snapshot. -/
theorem claim_C10_witness :
    mapGet (syncState wEnv [wItem2] wState).snapshots "i1" = mapGet wState.snapshots "i1"
    ∧ mapGet (computeActiveInstances wEnv.registry [wItem2]) "i2" = none
    ∧ (∃ hdl, mapGet wState.backends "i2" = some hdl)
    ∧ mapGet (syncState wEnv [wItem2] wState).snapshots "i2" = none := by
  refine ⟨?_, ?_⟩
  · exact (claim_C10_snapshot_frame wEnv [wItem2] wState "i1" (by decide)).1 (by decide)
  · exact (claim_C10_snapshot_frame wEnv [wItem2] wState "i2" (by decide)).2 (by decide)

/-!
## Claim theorems: secret masking
-/

/-- Counterexample to C5 as stated, at the bucket level.  First, the empty
string has length at most 8 but masks to itself, not to `"***"` (the code
treats only strings of length 1-8 that way).  Second, a secret of length 9
whose middle already reads `"***"` masks to a value equal to the original
secret, refuting "the masked value is never equal to the original secret
for every string value of length > 3". -/
theorem claim_C5_counterexample :
    SecretsManager.getMaskedSecrets
        ⟨none, true, [("w", [("k", JsValue.str ""), ("t", JsValue.str "abc***xyz")])]⟩ "w"
      = Except.ok [("k", JsValue.str ""), ("t", JsValue.str "abc***xyz")]
    ∧ JsValue.str "" ≠ JsValue.str "***"
    ∧ ("" : String).length ≤ 8
    ∧ maskValue (JsValue.str "abc***xyz") = JsValue.str "abc***xyz"
    ∧ 3 < ("abc***xyz" : String).length := by
  refine ⟨by decide, by decide, by decide, by decide, by decide⟩

/-- C5 as amended: masking a bucket keeps exactly its keys and maps each
value by the per-value rule — a string longer than 8 characters becomes its
first 3 characters ++ `"***"` ++ its last 3 characters, a string of length
1 to 8 becomes exactly `"***"`, and non-string values and the empty string
pass through unchanged.  Consequently a masked string of length 4 to 8 is
never equal to the original, and a string longer than 8 masks to a value
equal to the original exactly when the original already has the shape
first3 ++ `"***"` ++ last3. -/
theorem claim_C5_masking :
    (∀ (m : SecretsManager) (wid : String) (bkt : Bucket),
        m.getWidgetSecrets wid = Except.ok bkt →
        m.getMaskedSecrets wid = Except.ok (maskBucket bkt))
    ∧ (∀ bkt : Bucket, mapKeys (maskBucket bkt) = mapKeys bkt)
    ∧ (∀ s : String, 8 < s.length →
        maskValue (JsValue.str s) = JsValue.str (s.take 3 ++ "***" ++ s.drop (s.length - 3)))
    ∧ (∀ s : String, 0 < s.length → s.length ≤ 8 → maskValue (JsValue.str s) = JsValue.str "***")
    ∧ (∀ v : JsValue, (∀ s, v ≠ JsValue.str s) → maskValue v = v)
    ∧ maskValue (JsValue.str "") = JsValue.str ""
    ∧ (∀ s : String, 3 < s.length → s.length ≤ 8 → maskValue (JsValue.str s) ≠ JsValue.str s)
    ∧ (∀ s : String, 8 < s.length →
        (maskValue (JsValue.str s) = JsValue.str s ↔
          s = s.take 3 ++ "***" ++ s.drop (s.length - 3))) := by
  refine ⟨?_, ?_, ?_, ?_, ?_, ?_, ?_, ?_⟩
  · intro m wid bkt h
    unfold SecretsManager.getMaskedSecrets
    rw [h]
  · intro bkt
    simp [maskBucket, mapKeys]
  · intro s h
    unfold maskValue
    dsimp only
    rw [if_pos h]
  · intro s h0 h8
    unfold maskValue
    dsimp only
    rw [if_neg (by omega), if_pos h0]
  · intro v h
    cases v with
    | null => rfl
    | bool b => rfl
    | num n => rfl
    | str s => exact absurd rfl (h s)
    | arr a => rfl
    | obj o => rfl
  · decide
  · intro s h3 h8
    rw [show maskValue (JsValue.str s) = JsValue.str "***" by
      unfold maskValue
      dsimp only
      rw [if_neg (by omega), if_pos (by omega)]]
    intro heq
    injection heq with he
    rw [← he] at h3
    exact absurd h3 (by decide)
  · intro s h
    unfold maskValue
    dsimp only
    rw [if_pos h]
    constructor
    · intro heq
      injection heq with he
      exact he.symm
    · intro he
      exact congrArg JsValue.str he.symm

/-- Witness for the amended C5 at concrete secrets. -/
theorem claim_C5_witness :
    maskValue (JsValue.str "verylongsecret")
      = JsValue.str ("verylongsecret".take 3 ++ "***"
          ++ "verylongsecret".drop (("verylongsecret" : String).length - 3))
    ∧ maskValue (JsValue.str "short") = JsValue.str "***"
    ∧ maskValue (JsValue.str "short") ≠ JsValue.str "short"
    ∧ maskValue (JsValue.num 5) = JsValue.num 5
    ∧ SecretsManager.getMaskedSecrets ⟨none, true, [("w", [("k", JsValue.str "short")])]⟩ "w"
        = Except.ok (maskBucket [("k", JsValue.str "short")]) := by
  refine ⟨?_, ?_, ?_, ?_, ?_⟩
  · exact claim_C5_masking.2.2.1 "verylongsecret" (by decide)
  · exact claim_C5_masking.2.2.2.1 "short" (by decide) (by decide)
  · exact claim_C5_masking.2.2.2.2.2.2.1 "short" (by decide) (by decide)
  · exact claim_C5_masking.2.2.2.2.1 (JsValue.num 5) (fun s h => JsValue.noConfusion h)
  · exact claim_C5_masking.1 ⟨none, true, [("w", [("k", JsValue.str "short")])]⟩ "w"
      [("k", JsValue.str "short")] (by decide)

/-!
## Claim theorems: secrets store failure semantics and encryption
-/

/-- C6: a secret-store read failure never crashes the process.  Whenever
the stored production secrets artifact fails to decrypt — the tag does not
verify, the blob is truncated (the `EncStored.truncated` shape), or the
master key is absent or malformed, all of which surface as a
`decryptStored` error — the load degrades to the empty in-memory store.
In non-development mode an invalid or missing master key at construction
time makes the process exit, while a valid key always leaves the server
running with exactly the loaded store (so a decrypt failure alone is not
fatal). -/
theorem claim_C6_read_failure_degrades (mk : Option String) (disk : DiskState) :
    (∀ (stored : EncStored SecretsMap) (e : String),
      disk.encFile = some stored →
      decryptStored stored mk = Except.error e →
      loadSecrets false mk disk = [])
    ∧ (isValidMasterKey mk = false → initServer mk false disk = ServerInit.exited)
    ∧ (isValidMasterKey mk = true →
      initServer mk false disk
        = ServerInit.running (some ⟨mk, false, loadSecrets false mk disk⟩)) := by
  refine ⟨?_, ?_, ?_⟩
  · intro stored e henc hdec
    unfold loadSecrets
    rw [if_neg (by simp), henc]
    dsimp only
    rw [hdec]
  · intro hv
    unfold initServer SecretsManager.create
    rw [if_pos (by rw [hv]; rfl)]
    rfl
  · intro hv
    unfold initServer SecretsManager.create
    rw [if_neg (by rw [hv]; simp)]

/-- Witness for C6: a truncated blob with a valid key loads as the empty
store and the server still runs; a missing key in production exits. -/
theorem claim_C6_witness :
    loadSecrets false (some wKey) ⟨none, some EncStored.truncated⟩ = []
    ∧ initServer none false ⟨none, some EncStored.truncated⟩ = ServerInit.exited
    ∧ initServer (some wKey) false ⟨none, some EncStored.truncated⟩
        = ServerInit.running (some ⟨some wKey, false,
            loadSecrets false (some wKey) ⟨none, some EncStored.truncated⟩⟩) := by
  refine ⟨?_, ?_, ?_⟩
  · exact (claim_C6_read_failure_degrades (some wKey) ⟨none, some EncStored.truncated⟩).1
      EncStored.truncated "Invalid initialization vector" rfl (by decide)
  · exact (claim_C6_read_failure_degrades none ⟨none, some EncStored.truncated⟩).2.1 (by decide)
  · exact (claim_C6_read_failure_degrades (some wKey) ⟨none, some EncStored.truncated⟩).2.2
      (by decide)

/-- C7: for every JSON value (including the empty object and nested
structures) and every non-empty master key, decrypting an honest
encryption with the same key returns the value unchanged; decrypting with
any other key always errors; any blob that decrypts successfully under a
key is exactly the honest encryption of the returned value under that key
(authenticity — so a tampered blob either fails or was not actually
tampered), and in particular replacing the authentication tag of an honest
blob by any other tag makes decryption fail. -/
theorem claim_C7_encrypted_roundtrip :
    (∀ (data : JsValue) (master : String) (salt iv : Nat), master ≠ "" →
      decrypt (encryptBlob data master salt iv) master = Except.ok data)
    ∧ (∀ (data : JsValue) (master master2 : String) (salt iv : Nat), master2 ≠ master →
      isErr (decrypt (encryptBlob data master salt iv) master2) = true)
    ∧ (∀ (b : EncBlob JsValue) (master : String) (v : JsValue),
      decrypt b master = Except.ok v → b = encryptBlob v master b.salt b.iv)
    ∧ (∀ (data : JsValue) (master : String) (salt iv : Nat) (tag2 : AuthTag JsValue),
      tag2 ≠ (encryptBlob data master salt iv).tag →
      isErr (decrypt ⟨salt, iv, (encryptBlob data master salt iv).ct, tag2⟩ master) = true) := by
  refine ⟨?_, ?_, ?_, ?_⟩
  · intro data master salt iv hm
    unfold decrypt encryptBlob
    rw [if_neg hm]
    dsimp only
    rw [if_pos rfl, if_pos ⟨rfl, rfl⟩]
  · intro data master master2 salt iv hne
    by_cases h0 : master2 = ""
    · subst h0
      rfl
    · unfold decrypt encryptBlob
      rw [if_neg h0]
      dsimp only
      rw [if_neg ?hc]
      case hc =>
        intro heq
        injection heq with hk hi hc
        injection hk with hm hs
        exact hne hm.symm
      rfl
  · intro b master v h
    unfold decrypt at h
    by_cases h0 : master = ""
    · rw [if_pos h0] at h
      exact absurd h (by simp)
    · rw [if_neg h0] at h
      by_cases h1 : b.tag = ⟨deriveKey master b.salt, b.iv, b.ct⟩
      · rw [if_pos h1] at h
        by_cases h2 : b.ct.key = deriveKey master b.salt ∧ b.ct.iv = b.iv
        · rw [if_pos h2] at h
          have hv : b.ct.body = v := by injection h
          obtain ⟨hk, hiv⟩ := h2
          unfold encryptBlob
          cases b with
          | mk salt iv ct tag =>
            cases ct with
            | mk ckey civ cbody =>
              dsimp only at hk hiv hv h1 ⊢
              subst hk
              subst hiv
              subst hv
              rw [h1]
        · rw [if_neg h2] at h
          exact absurd h (by simp)
      · rw [if_neg h1] at h
        exact absurd h (by simp)
  · intro data master salt iv tag2 hne
    by_cases h0 : master = ""
    · unfold decrypt
      rw [if_pos h0]
      rfl
    · unfold decrypt
      rw [if_neg h0]
      dsimp only
      rw [if_neg ?hd]
      case hd =>
        intro heq
        exact hne (by rw [heq]; rfl)
      rfl

/-- Witness for C7 at a concrete nested JSON value and concrete keys. -/
theorem claim_C7_witness :
    decrypt (encryptBlob (JsValue.obj (JsObj.cons "a"
        (JsValue.arr (JsArr.cons (JsValue.num 1) JsArr.nil)) JsObj.nil)) wKey 5 7) wKey
      = Except.ok (JsValue.obj (JsObj.cons "a"
        (JsValue.arr (JsArr.cons (JsValue.num 1) JsArr.nil)) JsObj.nil))
    ∧ isErr (decrypt (encryptBlob (JsValue.obj JsObj.nil) wKey 5 7) "deadbeef") = true
    ∧ encryptBlob JsValue.null wKey 5 7
        = encryptBlob JsValue.null wKey (encryptBlob JsValue.null wKey 5 7).salt
            (encryptBlob JsValue.null wKey 5 7).iv
    ∧ isErr (decrypt ⟨5, 7, (encryptBlob (JsValue.obj JsObj.nil) wKey 5 7).ct,
        ⟨deriveKey "other" 5, 7, (encryptBlob (JsValue.obj JsObj.nil) wKey 5 7).ct⟩⟩ wKey)
      = true := by
  refine ⟨?_, ?_, ?_, ?_⟩
  · exact claim_C7_encrypted_roundtrip.1 _ wKey 5 7 (by decide)
  · exact claim_C7_encrypted_roundtrip.2.1 (JsValue.obj JsObj.nil) wKey "deadbeef" 5 7 (by decide)
  · exact claim_C7_encrypted_roundtrip.2.2.1 (encryptBlob JsValue.null wKey 5 7) wKey JsValue.null
      (claim_C7_encrypted_roundtrip.1 JsValue.null wKey 5 7 (by decide))
  · exact claim_C7_encrypted_roundtrip.2.2.2 (JsValue.obj JsObj.nil) wKey 5 7
      ⟨deriveKey "other" 5, 7, (encryptBlob (JsValue.obj JsObj.nil) wKey 5 7).ct⟩ (by decide)

/-!
## Claim theorems: ai-summary dashboard state and secrets listing
-/

/-- Counterexample to C8 as stated: with one healthy widget and one widget
missing data, the code returns `no_data`, although the claim's `no_data`
condition ("zero widgets or all widgets are missing data") does not hold
here, its `operational` condition ("no error and none missing") does not
hold either, and no error exists — so the claim's rule (formalised as
`specDashboardState`) yields `operational` instead. -/
theorem claim_C8_counterexample :
    dashboardStateOf [WidgetStatus.healthy, WidgetStatus.noData] = DashboardState.noData
    ∧ specDashboardState [WidgetStatus.healthy, WidgetStatus.noData] = DashboardState.operational
    ∧ ¬([WidgetStatus.healthy, WidgetStatus.noData].length = 0
        ∨ [WidgetStatus.healthy, WidgetStatus.noData].all
            (fun w => w == WidgetStatus.noData) = true)
    ∧ errorCount [WidgetStatus.healthy, WidgetStatus.noData] = 0 := by
  refine ⟨by decide, by decide, by decide, by decide⟩

/-- C8 as amended: the `ai-summary` `dashboard_state` is `no_data` when
there are zero widgets; otherwise `critical` when errors occur in more than
half the widgets; otherwise `degraded` when any widget has an error;
otherwise `no_data` when at least one widget is missing data (not only when
all are); and `operational` when no widget has an error and none is missing
data.  The zero-widget `no_data` check has the highest precedence, then
critical, then degraded, then the any-missing `no_data` check. -/
theorem claim_C8_dashboard_state (ws : List WidgetStatus) :
    (ws = [] → dashboardStateOf ws = DashboardState.noData)
    ∧ (ws ≠ [] → 2 * errorCount ws > ws.length →
        dashboardStateOf ws = DashboardState.critical)
    ∧ (ws ≠ [] → 2 * errorCount ws ≤ ws.length → 0 < errorCount ws →
        dashboardStateOf ws = DashboardState.degraded)
    ∧ (ws ≠ [] → errorCount ws = 0 → 0 < noDataCount ws →
        dashboardStateOf ws = DashboardState.noData)
    ∧ (ws ≠ [] → errorCount ws = 0 → noDataCount ws = 0 →
        dashboardStateOf ws = DashboardState.operational) := by
  have hlen : ∀ h : ws ≠ [], ((ws.length == 0) = true) → False := by
    intro h hc
    exact h (List.length_eq_zero.mp (by simpa using hc))
  refine ⟨?_, ?_, ?_, ?_, ?_⟩
  · intro h
    subst h
    rfl
  · intro hne hgt
    unfold dashboardStateOf
    rw [if_neg (hlen hne), if_pos hgt]
  · intro hne hle he
    unfold dashboardStateOf
    rw [if_neg (hlen hne), if_neg (by omega), if_pos he]
  · intro hne he hnd
    unfold dashboardStateOf
    rw [if_neg (hlen hne), if_neg (by omega), if_neg (by omega), if_pos hnd]
  · intro hne he hnd
    unfold dashboardStateOf
    rw [if_neg (hlen hne), if_neg (by omega), if_neg (by omega), if_neg (by omega)]

/-- Witness for the amended C8 at concrete status lists. -/
theorem claim_C8_witness :
    dashboardStateOf [] = DashboardState.noData
    ∧ dashboardStateOf [WidgetStatus.error] = DashboardState.critical
    ∧ dashboardStateOf [WidgetStatus.error, WidgetStatus.healthy] = DashboardState.degraded
    ∧ dashboardStateOf [WidgetStatus.healthy, WidgetStatus.noData] = DashboardState.noData
    ∧ dashboardStateOf [WidgetStatus.healthy, WidgetStatus.unknown] = DashboardState.operational := by
  refine ⟨?_, ?_, ?_, ?_, ?_⟩
  · exact (claim_C8_dashboard_state []).1 rfl
  · exact (claim_C8_dashboard_state [WidgetStatus.error]).2.1 (by decide) (by decide)
  · exact (claim_C8_dashboard_state [WidgetStatus.error, WidgetStatus.healthy]).2.2.1
      (by decide) (by decide) (by decide)
  · exact (claim_C8_dashboard_state [WidgetStatus.healthy, WidgetStatus.noData]).2.2.2.1
      (by decide) (by decide) (by decide)
  · exact (claim_C8_dashboard_state [WidgetStatus.healthy, WidgetStatus.unknown]).2.2.2.2
      (by decide) (by decide) (by decide)

/-- Counterexample to C9 as stated: setting a widget's bucket to the empty
object (which the API accepts) stores an empty bucket, and
`listWidgetsWithSecrets` then lists that widget id even though its bucket
is empty — while `hasSecrets` for the same id reports `false`. -/
theorem claim_C9_counterexample :
    SecretsManager.setWidgetSecrets ⟨none, true, []⟩ "w" []
      = Except.ok ⟨none, true, [("w", [])]⟩
    ∧ SecretsManager.listWidgetsWithSecrets ⟨none, true, [("w", [])]⟩ = ["w"]
    ∧ mapGet (SecretsManager.mk none true [("w", [])]).secrets "w" = some []
    ∧ SecretsManager.hasSecrets ⟨none, true, [("w", [])]⟩ "w" = Except.ok false := by
  refine ⟨by decide, by decide, by decide, by decide⟩

/-- C9 as amended: `listWidgetsWithSecrets` (and so `GET /secrets`) returns
exactly the widget type ids with a stored bucket: an id appears in the list
precisely when a bucket — possibly empty — is stored for it, so a type with
no stored bucket never appears, but a type whose stored bucket is the empty
object does. -/
theorem claim_C9_list_stored_buckets (m : SecretsManager) (wid : String) :
    wid ∈ m.listWidgetsWithSecrets ↔ (mapGet m.secrets wid).isSome = true := by
  unfold SecretsManager.listWidgetsWithSecrets
  exact (mapGet_isSome_iff m.secrets wid).symm
